import Mathlib

/-!
A verification development of the bash-like configuration reader in
src/snakeoil/bash.py: the comment filter (iter_read_bash), the quote-tracking
tokenizer (class bash_parser, a shlex subclass run in posix mode), the variable
interpolator (bash_parser.var_expand together with the module-level regexes
var_find and backslash_find and the helper _nuke_backslash), and the assignment
builder (read_bash_dict).  Strings are embedded as lists of characters; the
mutable parser object becomes an explicit record threaded through the
functions; Python exceptions become Except.
-/

namespace Snakeoil

/-- Python whitespace, as used by str.strip / str.rstrip / str.isspace. -/
def isPySpace (c : Char) : Bool :=
  match c with
  | ' ' | '\t' | '\n' | '\r' | '\x0b' | '\x0c' => true
  | _ => false

/-- Python str.lstrip with no argument. -/
def pyLstrip (s : List Char) : List Char := s.dropWhile isPySpace

/-- Python str.rstrip with no argument. -/
def pyRstrip (s : List Char) : List Char := (s.reverse.dropWhile isPySpace).reverse

/-- Python str.strip with no argument. -/
def pyStrip (s : List Char) : List Char := pyRstrip (pyLstrip s)

/-- Python str.isspace: nonempty and every character is whitespace. -/
def pyIsSpaceTok (cs : List Char) : Bool := !cs.isEmpty && cs.all isPySpace

/-- The body of iter_read_bash's loop for one raw line (src/snakeoil/bash.py,
lines 49-54): strip the line, drop it when it is empty or starts with a hash,
and in inline-comment mode keep only the part before the first hash,
right-trimmed (s.split with separator hash, first piece, then rstrip). -/
def stripCommentLine (allowInline : Bool) (line : List Char) : Option (List Char) :=
  let s := pyStrip line
  match s with
  | [] => none
  | c :: _ =>
    if c = '#' then none
    else if allowInline then some (pyRstrip (s.takeWhile (fun ch => ch ≠ '#')))
    else some s

/-- iter_read_bash over an already-split sequence of lines (the file-opening
path delegates to the same per-line processing). -/
def iterReadBash (source : List (List Char)) (allowInline : Bool) : List (List Char) :=
  source.filterMap (stripCommentLine allowInline)

/-- A value bound in the environment handed to read_bash_dict.  Python allows
any object there; var_expand only distinguishes strings from everything else.
The other constructor carries the text Python would render for the offending
value in the ValueError message (its type and repr). -/
inductive EnvVal where
  | str (s : String)
  | other (desc : String)
deriving DecidableEq, Repr

/-- Decidable equality of outcomes, so concrete runs can be checked by
evaluation. -/
instance exceptDecEq {α β : Type} [DecidableEq α] [DecidableEq β] :
    DecidableEq (Except α β)
  | .error a, .error b =>
    if h : a = b then isTrue (by rw [h]) else isFalse (fun he => h (Except.error.inj he))
  | .error _, .ok _ => isFalse (fun he => Except.noConfusion he)
  | .ok _, .error _ => isFalse (fun he => Except.noConfusion he)
  | .ok a, .ok b =>
    if h : a = b then isTrue (by rw [h]) else isFalse (fun he => h (Except.ok.inj he))

/-- Python dict lookup on an insertion-ordered association list. -/
def dictFind (d : List (String × EnvVal)) (k : String) : Option EnvVal :=
  (d.find? (fun p => p.1 == k)).map (fun p => p.2)

/-- Python dict assignment: overwrite in place when the key exists, append
otherwise. -/
def dictSet (d : List (String × EnvVal)) (k : String) (v : EnvVal) : List (String × EnvVal) :=
  if d.any (fun p => p.1 == k) then d.map (fun p => if p.1 == k then (k, v) else p)
  else d ++ [(k, v)]

/-- Modelled from the spec: ProtectedDict (imported from snakeoil.mappings,
which is not under src/) wraps the caller-supplied base mapping with a write
overlay; writes go only to the overlay and lookups check the overlay first,
falling back to the read-only base.  orig is the base, new the overlay
(ProtectedDict's attribute of that name, read by read_bash_dict on
completion).  The blacklist mechanism of ProtectedDict serves deletion only,
which read_bash_dict never performs, so it is omitted. -/
structure PDict where
  orig : List (String × EnvVal)
  new : List (String × EnvVal)
deriving DecidableEq, Repr

/-- ProtectedDict.__getitem__: overlay first, then the base. -/
def PDict.find (d : PDict) (k : String) : Option EnvVal :=
  match dictFind d.new k with
  | some v => some v
  | none => dictFind d.orig k

/-- ProtectedDict.__setitem__: the write goes to the overlay only. -/
def PDict.set (d : PDict) (k : String) (v : EnvVal) : PDict :=
  { d with new := dictSet d.new k v }

/-- A single-quote character as a string, used to build the exact Python
error-message texts. -/
def sq : String := String.mk ['\'']

/-- The ValueError message raised by var_expand (src/snakeoil/bash.py, lines
239-241) for a non-string environment value: "env key %r must be a string,
not %s: %r" with the variable name and the value's type and repr; desc stands
for the "%s: %r" rendering of the offending value. -/
def valueErrMsg (var : String) (desc : String) : String :=
  "env key " ++ sq ++ var ++ sq ++ " must be a string, not " ++ desc

/-- A word character of the regex var_find (the \w class of a plain Python 2
pattern: ASCII letters, digits, underscore). -/
def isRegexWord (c : Char) : Bool := c.isAlpha || c.isDigit || c == '_'

/-- Maximal run of regex word characters at the head (the \w+ of var_find). -/
def wordRun : List Char → List Char × List Char
  | [] => ([], [])
  | c :: rest =>
    if isRegexWord c then
      let p := wordRun rest
      (c :: p.1, p.2)
    else ([], c :: rest)

/-- A match of var_find's group ($ name in braces, or $ followed by a word
run) at the head of the list: the variable name and the remainder after the
matched text.  The braced alternative is tried first, as in the pattern. -/
def dollarMatch : List Char → Option (List Char × List Char)
  | '$' :: '{' :: rest =>
    let p := wordRun rest
    if p.1.isEmpty then none
    else
      match p.2 with
      | '}' :: after => some (p.1, after)
      | _ => none
  | '$' :: rest =>
    let p := wordRun rest
    if p.1.isEmpty then none else some (p.1, p.2)
  | _ => none

/-- The substitution loop of var_expand (src/snakeoil/bash.py, lines 224-246),
rendered as a left-to-right scan.  var_find searches for an optional backslash
followed by a variable reference; at an escaped occurrence the scan skips two
characters (the backslash and the dollar), leaving them in the output; at an
unescaped occurrence the reference is replaced by the environment value (empty
string when absent), raising ValueError when the bound value is not a string.
Characters outside matches are copied.  The fuel argument only bounds the
recursion; one unit per consumed character suffices. -/
def varSub (d : PDict) : Nat → List Char → Except String (List Char)
  | 0, _ => .error ("internal fuel exhausted")
  | _ + 1, [] => .ok []
  | fuel + 1, '\\' :: rest =>
    match dollarMatch rest with
    | some _ =>
      match rest with
      | '$' :: rest2 => (varSub d fuel rest2).map (fun t => '\\' :: '$' :: t)
      | _ => (varSub d fuel rest).map (fun t => '\\' :: t)
    | none => (varSub d fuel rest).map (fun t => '\\' :: t)
  | fuel + 1, '$' :: rest =>
    match dollarMatch ('$' :: rest) with
    | some p =>
      let nm := String.mk p.1
      match d.find nm with
      | some (EnvVal.str v) => (varSub d fuel p.2).map (fun t => v.toList ++ t)
      | some (EnvVal.other desc) => .error (valueErrMsg nm desc)
      | none => varSub d fuel p.2
    | none => (varSub d fuel rest).map (fun t => '$' :: t)
  | fuel + 1, c :: rest => (varSub d fuel rest).map (fun t => c :: t)

/-- backslash_find.sub(_nuke_backslash, s): each match of a backslash followed
by any character other than newline (the regex dot does not match newline)
collapses to that following character; _nuke_backslash's branch returning a
bare newline for a backslash-newline match is unreachable through this
pattern, so a backslash directly before a newline is left in place and the
scan resumes after the newline. -/
def nukeBackslashes : List Char → List Char
  | [] => []
  | ['\\'] => ['\\']
  | '\\' :: c :: rest =>
    if c = '\n' then '\\' :: '\n' :: nukeBackslashes rest
    else c :: nukeBackslashes rest
  | c :: rest => c :: nukeBackslashes rest

/-- var_expand (src/snakeoil/bash.py, lines 223-250): substitution followed by
the backslash-collapsing pass over the whole result. -/
def varExpand (d : PDict) (val : List Char) : Except String (List Char) :=
  (varSub d (val.length + 1) val).map nukeBackslashes

/-- str.replace of the two-character backslash-newline sequence by the empty
string: non-overlapping occurrences removed left to right. -/
def removeBackslashNewline : List Char → List Char
  | [] => []
  | '\\' :: '\n' :: rest => removeBackslashNewline rest
  | c :: rest => c :: removeBackslashNewline rest

/-- Per-span processing of read_token (src/snakeoil/bash.py, lines 216-220):
spans collected in double-quote or word state are interpolated and then have
backslash-newline sequences removed; all other spans (single-quote state,
whitespace state, end-of-file state) are copied verbatim. -/
def processSpan (d : PDict) (st : Option Char) (t : List Char) : Except String (List Char) :=
  if st = some '\"' ∨ st = some 'a' then (varExpand d t).map removeBackslashNewline
  else .ok t

/-- shlex's whitespace set (space, tab, carriage return, newline). -/
def isShWhitespace (c : Char) : Bool := c == ' ' || c == '\t' || c == '\r' || c == '\n'

/-- The word-character set of bash_parser: shlex's posix default (ASCII
letters, digits, underscore, and the latin-1 accented letters 0xC0-0xFF except
multiplication and division signs) extended in __init__ (src/snakeoil/bash.py,
line 178) with at dollar braces slash dot dash plus colon tilde caret star. -/
def isWordChar (c : Char) : Bool :=
  c.isAlpha || c.isDigit || c == '_' ||
  c == '@' || c == '$' || c == '{' || c == '}' || c == '/' || c == '.' ||
  c == '-' || c == '+' || c == ':' || c == '~' || c == '^' || c == '*' ||
  decide (0xC0 ≤ c.toNat ∧ c.toNat ≤ 0xFF ∧ c.toNat ≠ 0xD7 ∧ c.toNat ≠ 0xF7)

/-- The tokenizer's mutable state: the remaining character stream, the
1-based line counter, shlex's quote state (space for between-words, the
letter a for in-word, a quote character while inside that quote, backslash
while one character is escaped, none after end of input), the token
accumulator, the token pushback deque, and bash_parser's per-token span log
(changed_state) with its position cursor into the accumulator. -/
structure Lexer where
  input : List Char
  lineno : Nat
  state : Option Char
  token : List Char
  pushback : List (Option (List Char))
  changedState : List (Option Char × List Char)
  pos : Nat
deriving DecidableEq, Repr

/-- The four state transitions intercepted by bash_parser.__setattr__
(src/snakeoil/bash.py, lines 189-190): double quote to word, word to double
quote, word to whitespace, single quote to word. -/
def stateTracked (old val : Option Char) : Bool :=
  (old == some '\"' && val == some 'a') || (old == some 'a' && val == some '\"') ||
  (old == some 'a' && val == some ' ') || (old == some '\'' && val == some 'a')

/-- Assignment to the state attribute, as intercepted by __setattr__
(src/snakeoil/bash.py, lines 187-196): on a tracked transition, the part of
the token accumulated since the cursor is logged with the outgoing state, and
the cursor moves to the end of the accumulator. -/
def Lexer.setState (l : Lexer) (v : Option Char) : Lexer :=
  if stateTracked l.state v then
    let strl := l.token.length
    let cs :=
      if l.pos ≠ strl then l.changedState ++ [(l.state, l.token.drop l.pos)]
      else l.changedState
    { l with changedState := cs, pos := strl, state := v }
  else { l with state := v }

/-- instream.readline as used for comment skipping: consume through the next
newline (or to end of input). -/
def dropLine : List Char → List Char
  | [] => []
  | '\n' :: rest => rest
  | _ :: rest => dropLine rest

/-- The character loop of shlex.read_token (Python 2 stdlib, the base class of
bash_parser; posix mode, whitespace_split off), with every assignment to the
state attribute routed through Lexer.setState so that bash_parser's span log
is maintained.  One character is read per iteration; reading newline bumps
the line counter; the loop locals quoted and escapedstate are threaded as
arguments.  Returns the lexer at loop exit together with the quoted flag;
raises the two shlex ValueErrors for end of input inside a quote or an escape.
The fuel only bounds the recursion; input length plus one suffices since every
continuing iteration consumes at least one character. -/
def shlexReadToken : Nat → Lexer → Bool → Char → Except (String × Lexer) (Lexer × Bool)
  | 0, l, _, _ => .error (("internal fuel exhausted"), l)
  | fuel + 1, l, quoted, esc =>
    match l.input with
    | [] =>
      if l.state = none then .ok ({ l with token := [] }, quoted)
      else if l.state = some ' ' then .ok (l.setState none, quoted)
      else if l.state = some '\"' ∨ l.state = some '\'' then
        .error (("No closing quotation"), l)
      else if l.state = some '\\' then .error (("No escaped character"), l)
      else .ok (l.setState none, quoted)
    | c :: rest =>
      let l1 : Lexer :=
        { l with input := rest, lineno := if c = '\n' then l.lineno + 1 else l.lineno }
      if l1.state = none then .ok ({ l1 with token := [] }, quoted)
      else if l1.state = some ' ' then
        if isShWhitespace c then
          if l1.token ≠ [] ∨ quoted = true then .ok (l1, quoted)
          else shlexReadToken fuel l1 quoted esc
        else if c = '#' then
          shlexReadToken fuel
            { l1 with input := dropLine l1.input, lineno := l1.lineno + 1 } quoted esc
        else if c = '\\' then
          shlexReadToken fuel (l1.setState (some '\\')) quoted 'a'
        else if isWordChar c then
          shlexReadToken fuel ({ l1 with token := [c] }.setState (some 'a')) quoted esc
        else if c = '\"' ∨ c = '\'' then
          shlexReadToken fuel (l1.setState (some c)) quoted esc
        else .ok ({ l1 with token := [c] }, quoted)
      else if l1.state = some '\"' ∨ l1.state = some '\'' then
        if l1.state = some c then shlexReadToken fuel (l1.setState (some 'a')) true esc
        else if c = '\\' ∧ l1.state = some '\"' then
          shlexReadToken fuel (l1.setState (some '\\')) true '\"'
        else shlexReadToken fuel { l1 with token := l1.token ++ [c] } true esc
      else if l1.state = some '\\' then
        let l2 :=
          if (esc = '\"' ∨ esc = '\'') ∧ c ≠ '\\' ∧ c ≠ esc then
            { l1 with token := l1.token ++ ['\\'] }
          else l1
        shlexReadToken fuel ({ l2 with token := l2.token ++ [c] }.setState (some esc)) quoted esc
      else
        if isShWhitespace c then
          let l2 := l1.setState (some ' ')
          if l2.token ≠ [] ∨ quoted = true then .ok (l2, quoted)
          else shlexReadToken fuel l2 quoted esc
        else if c = '#' then
          let l2 :=
            ({ l1 with input := dropLine l1.input, lineno := l1.lineno + 1 }).setState (some ' ')
          if l2.token ≠ [] ∨ quoted = true then .ok (l2, quoted)
          else shlexReadToken fuel l2 quoted esc
        else if c = '\"' ∨ c = '\'' then
          shlexReadToken fuel (l1.setState (some c)) quoted esc
        else if c = '\\' then
          shlexReadToken fuel (l1.setState (some '\\')) quoted 'a'
        else if isWordChar c then
          shlexReadToken fuel { l1 with token := l1.token ++ [c] } quoted esc
        else
          let l2 := ({ l1 with pushback := some [c] :: l1.pushback }).setState (some ' ')
          if l2.token ≠ [] then .ok (l2, quoted)
          else shlexReadToken fuel l2 quoted esc

/-- The span-assembly loop at the end of bash_parser.read_token
(src/snakeoil/bash.py, lines 215-221): concatenate the processed spans in
order, propagating the first interpolation error. -/
def assembleSpans (d : PDict) : List (Option Char × List Char) → Except String (List Char)
  | [] => .ok []
  | (st, t) :: rest => do
    let piece ← processSpan d st t
    let tail2 ← assembleSpans d rest
    pure (piece ++ tail2)

/-- bash_parser.read_token (src/snakeoil/bash.py, lines 204-221): reset the
span log and cursor, run the shlex character loop, translate the empty
unquoted result to the no-token marker (shlex's posix tail), append the final
span (with the returned text when end of input was reached, with the emptied
accumulator otherwise), and assemble the interpolated token.  Errors carry the
lexer at the point of the raise so the caller can read its line counter. -/
def readToken (d : PDict) (l0 : Lexer) : Except (String × Lexer) (Option (List Char) × Lexer) :=
  let l := { l0 with changedState := [], pos := 0 }
  match shlexReadToken (l.input.length + 1) l false ' ' with
  | .error e => .error e
  | .ok (l1, quoted) =>
    let result := l1.token
    let l2 : Lexer := { l1 with token := [] }
    if quoted = false ∧ result = [] then .ok (none, l2)
    else
      let l3 :=
        if l2.state = none then
          { l2 with changedState := l2.changedState ++ [(none, result.drop l2.pos)] }
        else
          { l2 with changedState := l2.changedState ++ [(l2.state, ([] : List Char))] }
      match assembleSpans d l3.changedState with
      | .ok tok => .ok (some tok, l3)
      | .error m => .error (m, l3)

/-- shlex.get_token in the configuration read_bash_dict uses for the claims
below (no sourcing command, so no include handling; the file stack stays
empty, so the no-token marker is returned as end of input directly): pop the
pushback deque when nonempty, otherwise read a fresh token. -/
def getToken (d : PDict) (l : Lexer) : Except (String × Lexer) (Option (List Char) × Lexer) :=
  match l.pushback with
  | t :: rest => .ok (t, { l with pushback := rest })
  | [] => readToken d l

/-- shlex.push_token: left insertion into the pushback deque. -/
def pushToken (l : Lexer) (t : Option (List Char)) : Lexer :=
  { l with pushback := t :: l.pushback }

/-- The tokenizer state produced by bash_parser.__init__ on a fresh source:
whitespace state, line 1, everything else empty. -/
def initLexer (src : List Char) : Lexer :=
  { input := src, lineno := 1, state := some ' ', token := [], pushback := [],
    changedState := [], pos := 0 }

/-- BashParseError (src/snakeoil/bash.py, lines 253-266): the source identity,
the 1-based line number, and the optional message. -/
structure BashParseError where
  file : String
  line : Nat
  errmsg : Option String
deriving DecidableEq, Repr

/-- Python repr of an optional token, as interpolated by %r in the
expecting-equals message: None, or the string between single quotes. -/
def pyReprOpt : Option (List Char) → String
  | none => "None"
  | some t => sq ++ String.mk t ++ sq

/-- The message of the structural parse error raised when the token after a
name is not the equals sign (src/snakeoil/bash.py, lines 119-120). -/
def mkExpectEqErrMsg (eq : Option (List Char)) : String :=
  "got token " ++ pyReprOpt eq ++ ", was expecting " ++ sq ++ "=" ++ sq

/-- The one-token-lookahead step of read_bash_dict (src/snakeoil/bash.py,
lines 124-134): when the token after the candidate value is a second equals
sign, the lookahead and then the value are pushed back (leftmost insertions,
so the value comes off first) and the empty string is recorded for the
current name; otherwise the lookahead is pushed back unconsumed and the
candidate value is recorded. -/
def handleLookahead (d : PDict) (key val : List Char) (next? : Option (List Char))
    (l : Lexer) : PDict × Lexer :=
  if next? = some ['='] then
    (d.set (String.mk key) (EnvVal.str ""), pushToken (pushToken l next?) (some val))
  else
    (d.set (String.mk key) (EnvVal.str (String.mk val)), pushToken l next?)

/-- The assignment loop of read_bash_dict (src/snakeoil/bash.py, lines
106-136): read a name (stop at end of input, skip pure-whitespace tokens),
require a literal equals sign, read the candidate value (empty when absent),
apply the lookahead step, and store the assignment; any tokenizer or
interpolation ValueError is wrapped into a BashParseError carrying the
source identity and the tokenizer's line counter at the raise.  The dict is
returned alongside the outcome, mirroring the mutable dict that survives a
Python exception.  Fuel only bounds the recursion. -/
def rbdLoop (srcName : String) : Nat → PDict → Lexer →
    Except BashParseError Unit × PDict × Lexer
  | 0, d, l => (.ok (), d, l)
  | fuel + 1, d, l =>
    match getToken d l with
    | .error e => (.error ⟨srcName, e.2.lineno, some e.1⟩, d, e.2)
    | .ok (none, l1) => (.ok (), d, l1)
    | .ok (some key, l1) =>
      if pyIsSpaceTok key then rbdLoop srcName fuel d l1
      else
        match getToken d l1 with
        | .error e => (.error ⟨srcName, e.2.lineno, some e.1⟩, d, e.2)
        | .ok (eq, l2) =>
          if eq ≠ some ['='] then
            (.error ⟨srcName, l2.lineno, some (mkExpectEqErrMsg eq)⟩, d, l2)
          else
            match getToken d l2 with
            | .error e => (.error ⟨srcName, e.2.lineno, some e.1⟩, d, e.2)
            | .ok (val?, l3) =>
              let val := val?.getD []
              match getToken d l3 with
              | .error e => (.error ⟨srcName, e.2.lineno, some e.1⟩, d, e.2)
              | .ok (next?, l4) =>
                let dl := handleLookahead d key val next? l4
                rbdLoop srcName fuel dl.1 dl.2

/-- read_bash_dict (src/snakeoil/bash.py, lines 70-142) on an already-open
character source: wrap the caller environment (protected when supplied, empty
otherwise; either way writes land in the overlay and the base stays in orig),
run the assignment loop, and on success return the materialized overlay (the
attribute new read at line 141; with no caller environment the overlay is the
whole dict).  srcName stands for the source identity interpolated into parse
errors. -/
def readBashDict (srcName : String) (src : List Char)
    (varsDict : Option (List (String × EnvVal))) :
    Except BashParseError (List (String × EnvVal)) :=
  let d0 : PDict := { orig := varsDict.getD [], new := [] }
  match rbdLoop srcName (src.length + 4) d0 (initLexer src) with
  | (.error e, _, _) => .error e
  | (.ok _, d1, _) => .ok d1.new

/-- shlex.sourcehook's quote stripping: a leading double quote drops the first
and last characters of the filename token. -/
def stripDq : List Char → List Char
  | '\"' :: rest => rest.dropLast
  | l => l

/-- Modelled from the spec: the filesystem behind include support is a mapping
from filename to content; a missing entry is a file that cannot be opened
(the IOError of the stdlib open call, whose message text is modelled as shown).
bash_parser.sourcehook (src/snakeoil/bash.py, lines 198-202) wraps the shlex
hook and turns that IOError into a BashParseError carrying the included
filename and line 0.  The relative-path join against infile is the identity
here since read_bash_dict passes infile None for stream sources. -/
def sourcehook (fs : List (String × String)) (newfile : List Char) :
    Except BashParseError (String × String) :=
  let name := String.mk (stripDq newfile)
  match fs.find? (fun p => p.1 == name) with
  | some p => .ok (name, p.2)
  | none => .error ⟨name, 0, some ("could not open " ++ name)⟩

/-- The lexer carried by a token-read outcome (the parser object that survives
the call, also when it raised). -/
def exLex (r : Except (String × Lexer) (Option (List Char) × Lexer)) : Lexer :=
  match r with
  | .ok p => p.2
  | .error e => e.2

/-- An empty protected environment, for concrete runs. -/
def pdEmpty : PDict := ⟨[], []⟩

/-- The fresh tokenizer over the malformed source of the expecting-equals
example. -/
def c6l0 : Lexer := initLexer ((String.toList ("FOO bar\n")))

/-- The tokenizer after the name token of that example. -/
def c6l1 : Lexer := exLex (getToken pdEmpty c6l0)

/-- The tokenizer after the offending second token of that example. -/
def c6l2 : Lexer := exLex (getToken pdEmpty c6l1)

/-- A tokenizer whose line counter stands at 3, about to read the filename
token of an include directive. -/
def c7lex : Lexer := { initLexer ((String.toList ("inc"))) with lineno := 3 }

/-- That tokenizer after reading the filename token. -/
def c7lex2 : Lexer := exLex (readToken pdEmpty c7lex)

theorem dropWhile_head_false {p : Char → Bool} {l : List Char} {c : Char} {t : List Char}
    (h : List.dropWhile p l = c :: t) : p c = false := by
  induction l with
  | nil => simp [List.dropWhile] at h
  | cons x xs ih =>
    rw [List.dropWhile_cons] at h
    by_cases hx : p x = true
    · rw [if_pos hx] at h
      exact ih h
    · rw [if_neg hx] at h
      cases h
      simpa using hx

theorem dropWhile_append_single {p : Char → Bool} {c : Char} (hc : p c = false) :
    ∀ l : List Char, List.dropWhile p (l ++ [c]) = List.dropWhile p l ++ [c] := by
  intro l
  induction l with
  | nil => simp [List.dropWhile, hc]
  | cons x xs ih =>
    rw [List.cons_append, List.dropWhile_cons, List.dropWhile_cons]
    by_cases hx : p x = true
    · rw [if_pos hx, if_pos hx, ih]
    · rw [if_neg hx, if_neg hx, List.cons_append]

theorem pyRstrip_cons {c : Char} (hc : isPySpace c = false) (t : List Char) :
    pyRstrip (c :: t) = c :: pyRstrip t := by
  unfold pyRstrip
  rw [List.reverse_cons, dropWhile_append_single hc, List.reverse_append]
  simp

theorem mem_pyRstrip {x : Char} {l : List Char} (h : x ∈ pyRstrip l) : x ∈ l := by
  unfold pyRstrip at h
  rw [List.mem_reverse] at h
  have h2 := (List.dropWhile_sublist (l := l.reverse) isPySpace).mem h
  rwa [List.mem_reverse] at h2

theorem pyStrip_cases (l : List Char) :
    pyStrip l = [] ∨ ∃ c t, pyStrip l = c :: t ∧ isPySpace c = false := by
  unfold pyStrip pyLstrip
  cases h : List.dropWhile isPySpace l with
  | nil => left; simp [pyRstrip]
  | cons c t =>
    right
    have hc := dropWhile_head_false h
    rw [pyRstrip_cons hc]
    exact ⟨c, pyRstrip t, rfl, hc⟩

theorem stripCommentLine_shape {allow : Bool} {line out : List Char}
    (h : stripCommentLine allow line = some out) :
    ∃ c t, out = c :: t ∧ isPySpace c = false ∧ c ≠ '#' := by
  unfold stripCommentLine at h
  rcases pyStrip_cases line with h0 | ⟨c, t, h0, hc⟩
  · rw [h0] at h
    simp at h
  · rw [h0] at h
    replace h : (if c = '#' then none
        else if allow = true then some (pyRstrip ((c :: t).takeWhile (fun ch => ch ≠ '#')))
        else some (c :: t)) = some out := h
    by_cases hch : c = '#'
    · rw [if_pos hch] at h
      simp at h
    · rw [if_neg hch] at h
      by_cases hal : allow = true
      · rw [if_pos hal] at h
        have hout : out = pyRstrip ((c :: t).takeWhile (fun ch => ch ≠ '#')) := by
          cases h; rfl
        rw [List.takeWhile_cons] at hout
        rw [if_pos (by simpa using hch)] at hout
        rw [pyRstrip_cons hc] at hout
        exact ⟨c, _, hout, hc, hch⟩
      · rw [if_neg hal] at h
        cases h
        exact ⟨c, t, rfl, hc, hch⟩

/-- C9: for every input source and both settings of allow_inline_comments,
every string yielded by strip_comments (iter_read_bash) is non-blank and its
first non-space character is not a hash. -/
theorem strip_comments_nonblank (lines : List (List Char)) (allow : Bool)
    (out : List Char) (h : out ∈ iterReadBash lines allow) :
    pyLstrip out ≠ [] ∧ (pyLstrip out).head? ≠ some '#' := by
  obtain ⟨l, _, hsc⟩ := List.mem_filterMap.mp h
  obtain ⟨c, t, hout, hc, hch⟩ := stripCommentLine_shape hsc
  subst hout
  unfold pyLstrip
  rw [List.dropWhile_cons, if_neg (by simp [hc])]
  exact ⟨by simp, by simpa using hch⟩

/-- Witness for C9 at a concrete input. -/
theorem strip_comments_nonblank_witness :
    (String.toList ("A=b")) ∈ iterReadBash [(String.toList (" A=b # c"))] true
    ∧ pyLstrip ((String.toList ("A=b"))) ≠ []
    ∧ (pyLstrip ((String.toList ("A=b")))).head? ≠ some '#' :=
  ⟨by decide, strip_comments_nonblank [(String.toList (" A=b # c"))] true
    ((String.toList ("A=b"))) (by decide)⟩

/-- C8 counterexample: the inline-comment pass cuts at the first hash even
when a backslash precedes it, so the claim's protected escaped hash is false:
on the line FOO=a backslash hash b, the code keeps only FOO=a backslash,
while the claim (no unescaped hash present) would keep the whole trimmed
line. -/
theorem inline_comment_counterexample :
    iterReadBash [(String.toList ("FOO=a\\#b"))] true = [(String.toList ("FOO=a\\"))]
    ∧ (String.toList ("FOO=a\\")) ≠ (String.toList ("FOO=a\\#b")) := by
  decide

/-- C8 amended: with inline-comment mode enabled, each surviving line is the
part of the stripped line before the first hash -- whether or not a backslash
precedes it -- right-trimmed; in particular no yielded line contains a
hash. -/
theorem inline_comment_amended (lines : List (List Char)) (out : List Char)
    (h : out ∈ iterReadBash lines true) :
    '#' ∉ out
    ∧ ∃ l ∈ lines, out = pyRstrip ((pyStrip l).takeWhile (fun ch => ch ≠ '#')) := by
  obtain ⟨l, hl, hsc⟩ := List.mem_filterMap.mp h
  unfold stripCommentLine at hsc
  rcases pyStrip_cases l with h0 | ⟨c, t, h0, hc⟩
  · rw [h0] at hsc
    simp at hsc
  · rw [h0] at hsc
    replace hsc : (if c = '#' then none
        else some (pyRstrip ((c :: t).takeWhile (fun ch => ch ≠ '#')))) = some out := hsc
    by_cases hch : c = '#'
    · rw [if_pos hch] at hsc
      simp at hsc
    · rw [if_neg hch] at hsc
      have hout : out = pyRstrip ((c :: t).takeWhile (fun ch => ch ≠ '#')) := by
        cases hsc; rfl

      constructor
      · intro hmem
        rw [hout] at hmem
        have h2 := mem_pyRstrip hmem
        have h3 := List.mem_takeWhile_imp h2
        simp at h3
      · exact ⟨l, hl, by rw [hout, h0]⟩

/-- Witness for the amended C8 at a concrete input. -/
theorem inline_comment_amended_witness :
    (String.toList ("A=b")) ∈ iterReadBash [(String.toList (" A=b # c"))] true
    ∧ '#' ∉ (String.toList ("A=b"))
    ∧ ∃ l ∈ [(String.toList (" A=b # c"))],
        (String.toList ("A=b")) = pyRstrip ((pyStrip l).takeWhile (fun ch => ch ≠ '#')) :=
  ⟨by decide, inline_comment_amended [(String.toList (" A=b # c"))]
    ((String.toList ("A=b"))) (by decide)⟩

/-- C3: the escape-collapse pass run by the interpolator over unquoted and
double-quoted spans maps a backslash followed by any character other than
newline to that character (the backslash-collapsing substitution), removes
backslash-newline sequences (the subsequent replace), and is exactly the
processing applied to double-quote-state and word-state spans. -/
theorem escape_collapse_pass (x : Char) (rest rest2 : List Char) (d : PDict)
    (t : List Char) (hx : x ≠ '\n') :
    nukeBackslashes ('\\' :: x :: rest) = x :: nukeBackslashes rest
    ∧ removeBackslashNewline ('\\' :: '\n' :: rest2) = removeBackslashNewline rest2
    ∧ processSpan d (some '\"') t = (varExpand d t).map removeBackslashNewline
    ∧ processSpan d (some 'a') t = (varExpand d t).map removeBackslashNewline := by
  refine ⟨?_, rfl, rfl, rfl⟩
  have h1 : nukeBackslashes ('\\' :: x :: rest)
      = if x = '\n' then '\\' :: '\n' :: nukeBackslashes rest
        else x :: nukeBackslashes rest := rfl
  rw [h1, if_neg hx]

/-- Witness for C3 at a concrete character and span. -/
theorem escape_collapse_pass_witness :
    ('n' : Char) ≠ '\n'
    ∧ (nukeBackslashes ['\\', 'n'] = 'n' :: nukeBackslashes []
      ∧ removeBackslashNewline ['\\', '\n'] = removeBackslashNewline []
      ∧ processSpan pdEmpty (some '\"') [] = (varExpand pdEmpty []).map removeBackslashNewline
      ∧ processSpan pdEmpty (some 'a') [] = (varExpand pdEmpty []).map removeBackslashNewline) :=
  ⟨by decide, escape_collapse_pass 'n' [] [] pdEmpty [] (by decide)⟩

/-- C1: interpolation is applied per quote state -- double-quote-state spans
are interpolated (and word-state spans likewise), single-quote-state spans
are copied verbatim -- and on the two spec examples the double-quoted value
has the reference replaced from the base environment while the single-quoted
value keeps the reference text. -/
theorem interp_per_quote_state :
    (∀ (d : PDict) (t : List Char), processSpan d (some '\'') t = Except.ok t)
    ∧ (∀ (d : PDict) (t : List Char),
        processSpan d (some '\"') t = (varExpand d t).map removeBackslashNewline)
    ∧ readBashDict ("src") ((String.toList ("FOO=\"a $BAR b\"")))
        (some [("BAR", EnvVal.str "X")])
      = Except.ok [("FOO", EnvVal.str ("a X b"))]
    ∧ readBashDict ("src") ((String.toList ("FOO='a $BAR b'")))
        (some [("BAR", EnvVal.str "X")])
      = Except.ok [("FOO", EnvVal.str ("a $BAR b"))] := by
  refine ⟨fun d t => rfl, fun d t => rfl, by decide, by decide⟩

/-- C2: when the one-token lookahead after a candidate value is a second
equals sign, the current assignment's value is recorded as the empty string
and the lookahead and candidate value are pushed back, lookahead first, so
the value is re-read as the next name; on the spec example FOO=BAR=baz this
yields FOO bound to the empty string and BAR to baz. -/
theorem adjacent_assign_lookahead :
    (∀ (d : PDict) (key val : List Char) (l : Lexer),
        handleLookahead d key val (some ['=']) l
          = (d.set (String.mk key) (EnvVal.str ""),
             pushToken (pushToken l (some ['='])) (some val)))
    ∧ readBashDict ("src") ((String.toList ("FOO=BAR=baz"))) (some [])
      = Except.ok [("FOO", EnvVal.str ""), ("BAR", EnvVal.str ("baz"))] := by
  refine ⟨fun d key val l => ?_, by decide⟩
  rw [handleLookahead, if_pos rfl]

theorem handleLookahead_orig (d : PDict) (key val : List Char)
    (next? : Option (List Char)) (l : Lexer) :
    (handleLookahead d key val next? l).1.orig = d.orig := by
  rw [handleLookahead]
  split <;> rfl

theorem rbdLoop_orig (srcName : String) :
    ∀ (fuel : Nat) (d : PDict) (l : Lexer),
      (rbdLoop srcName fuel d l).2.1.orig = d.orig := by
  intro fuel
  induction fuel with
  | zero => intro d l; rfl
  | succ n ih =>
    intro d l
    simp only [rbdLoop]
    cases hg : getToken d l with
    | error e => simp
    | ok p =>
      obtain ⟨key?, l1⟩ := p
      cases key? with
      | none => simp
      | some key =>
        by_cases hsp : pyIsSpaceTok key = true
        · simp [hsp, ih]
        · simp only [hsp, Bool.false_eq_true, if_false]
          cases hg2 : getToken d l1 with
          | error e => simp
          | ok p2 =>
            obtain ⟨eq, l2⟩ := p2
            by_cases heq : eq = some ['=']
            · simp only [heq, ne_eq, not_true_eq_false, if_false]
              cases hg3 : getToken d l2 with
              | error e => simp
              | ok p3 =>
                obtain ⟨val?, l3⟩ := p3
                cases hg4 : getToken d l3 with
                | error e => simp [hg4]
                | ok p4 =>
                  obtain ⟨next?, l4⟩ := p4
                  simp only [hg4]
                  rw [ih]
                  exact handleLookahead_orig ..
            · simp [heq]

/-- C4: referencing an environment entry bound to a non-string value makes
read_bash_dict fail with a BashParseError (the interpolator's ValueError,
wrapped with the source identity and the tokenizer's line counter), for any
source identity and any rendering of the offending value; and the
caller-supplied base mapping is untouched -- the whole run only ever writes
the overlay, leaving orig of the protected dict as passed in. -/
theorem nonstring_env_parse_error (srcName : String) (desc : String) (fuel : Nat) :
    readBashDict srcName ((String.toList ("FOO=$BAR\n")))
        (some [("BAR", EnvVal.other desc)])
      = Except.error ⟨srcName, 2, some (valueErrMsg "BAR" desc)⟩
    ∧ (rbdLoop srcName fuel ⟨[("BAR", EnvVal.other desc)], []⟩
        (initLexer ((String.toList ("FOO=$BAR\n"))))).2.1.orig
      = [("BAR", EnvVal.other desc)] := by
  refine ⟨rfl, ?_⟩
  rw [rbdLoop_orig]

/-- C5 counterexample: with base environment binding BAR (never assigned by
the source), the result of a successful read does not contain BAR at all, so
the claim that every non-overwritten base key appears in the result with its
base value is false. -/
theorem overlay_result_counterexample :
    readBashDict ("src") ((String.toList ("FOO=bar"))) (some [("BAR", EnvVal.str "X")])
      = Except.ok [("FOO", EnvVal.str ("bar"))]
    ∧ dictFind [("BAR", EnvVal.str "X")] "BAR" = some (EnvVal.str "X")
    ∧ dictFind [("FOO", EnvVal.str ("bar"))] "BAR" = none := by
  decide

/-- C5 amended: on success with a base environment, the returned mapping is
the overlay materialized as a plain mapping -- exactly the assignments, base
keys not among them; the base remains visible to interpolation during the
parse and is itself never modified (the loop preserves orig of the protected
dict). -/
theorem overlay_result_amended :
    (∀ (srcName : String) (fuel : Nat) (d : PDict) (l : Lexer),
        (rbdLoop srcName fuel d l).2.1.orig = d.orig)
    ∧ readBashDict ("src") ((String.toList ("FOO=$BAR\n"))) (some [("BAR", EnvVal.str "X")])
      = Except.ok [("FOO", EnvVal.str ("X"))]
    ∧ readBashDict ("src") ((String.toList ("FOO=bar"))) (some [("BAR", EnvVal.str "X")])
      = Except.ok [("FOO", EnvVal.str ("bar"))] :=
  ⟨fun srcName fuel d l => rbdLoop_orig srcName fuel d l, by decide, by decide⟩

/-- C6: when a name token has been read and the next token is not the literal
equals sign, the assignment loop stops with a structural BashParseError whose
message reports the unexpected token and whose line is the tokenizer's
current line counter, and the dict is returned unchanged -- no assignment is
recorded for that name. -/
theorem expect_eq_parse_error (srcName : String) (fuel : Nat) (d : PDict)
    (l l1 l2 : Lexer) (key : List Char) (eq : Option (List Char))
    (h1 : getToken d l = Except.ok (some key, l1))
    (h2 : pyIsSpaceTok key = false)
    (h3 : getToken d l1 = Except.ok (eq, l2))
    (h4 : eq ≠ some ['=']) :
    rbdLoop srcName (fuel + 1) d l
      = (Except.error ⟨srcName, l2.lineno, some (mkExpectEqErrMsg eq)⟩, d, l2) := by
  simp only [rbdLoop, h1, h2, h3]
  rw [if_neg (by simp), if_pos h4]

/-- Witness for C6 on the source FOO bar: the second token is bar, the error
reports it with the tokenizer's line counter, and nothing is recorded. -/
theorem expect_eq_parse_error_witness :
    getToken pdEmpty c6l0 = Except.ok (some ((String.toList ("FOO"))), c6l1)
    ∧ pyIsSpaceTok ((String.toList ("FOO"))) = false
    ∧ getToken pdEmpty c6l1 = Except.ok (some ((String.toList ("bar"))), c6l2)
    ∧ some ((String.toList ("bar"))) ≠ some ['=']
    ∧ rbdLoop ("src") 1 pdEmpty c6l0
      = (Except.error ⟨("src"), c6l2.lineno,
          some (mkExpectEqErrMsg (some ((String.toList ("bar")))))⟩, pdEmpty, c6l2) :=
  ⟨by decide, by decide, by decide, by decide,
    expect_eq_parse_error ("src") 0 pdEmpty c6l0 c6l1 c6l2
      ((String.toList ("FOO"))) (some ((String.toList ("bar"))))
      (by decide) (by decide) (by decide) (by decide)⟩

/-- C7 counterexample: with the tokenizer's line counter at 3 while the
include filename is read, a failing open produces a BashParseError whose file
is the included filename and whose line is 0 -- not the line of the include
directive (3) in the including file. -/
theorem include_error_line_counterexample :
    readToken pdEmpty c7lex = Except.ok (some ((String.toList ("inc"))), c7lex2)
    ∧ c7lex2.lineno = 3
    ∧ sourcehook [] ((String.toList ("inc")))
      = Except.error ⟨("inc"), 0, some ("could not open inc")⟩
    ∧ (0 : Nat) ≠ 3 := by
  decide

/-- C7 amended: a failing include open surfaces as a BashParseError (not a
generic I/O error) naming the included file, but with line number 0, not the
line of the include directive. -/
theorem include_error_amended (fs : List (String × String)) (newfile : List Char)
    (h : fs.find? (fun p => p.1 == String.mk (stripDq newfile)) = none) :
    sourcehook fs newfile
      = Except.error ⟨String.mk (stripDq newfile), 0,
          some ("could not open " ++ String.mk (stripDq newfile))⟩ := by
  simp only [sourcehook, h]

/-- Witness for the amended C7 on an empty filesystem. -/
theorem include_error_amended_witness :
    (List.find? (fun p => p.1 == String.mk (stripDq ((String.toList ("inc")))))
      ([] : List (String × String))) = none
    ∧ sourcehook [] ((String.toList ("inc")))
      = Except.error ⟨String.mk (stripDq ((String.toList ("inc")))), 0,
          some ("could not open " ++ String.mk (stripDq ((String.toList ("inc")))))⟩ :=
  ⟨by decide, include_error_amended [] ((String.toList ("inc"))) (by decide)⟩

/-- C10: parsing is deterministic -- two successful runs of read_bash_dict on
the same source with the same base environment return structurally equal
mappings. -/
theorem parse_deterministic (srcName : String) (src : List Char)
    (env : Option (List (String × EnvVal))) (d1 d2 : List (String × EnvVal))
    (h1 : readBashDict srcName src env = Except.ok d1)
    (h2 : readBashDict srcName src env = Except.ok d2) : d1 = d2 := by
  rw [h1] at h2
  exact Except.ok.inj h2

/-- Witness for C10 at a concrete run. -/
theorem parse_deterministic_witness :
    readBashDict ("src") ((String.toList ("FOO=bar"))) (some [])
      = Except.ok [("FOO", EnvVal.str ("bar"))]
    ∧ [("FOO", EnvVal.str ("bar"))] = [("FOO", EnvVal.str ("bar"))] :=
  ⟨by decide,
    parse_deterministic ("src") ((String.toList ("FOO=bar"))) (some [])
      [("FOO", EnvVal.str ("bar"))] [("FOO", EnvVal.str ("bar"))]
      (by decide) (by decide)⟩

end Snakeoil
